import Mathlib

/-!
Verification development for the `bahasa-gaul` news/slang analysis script
(`src/main.py`). Python text values are modelled as lists of Unicode code
points (`Text := List Nat`); the script's data is ASCII, so the ASCII
fragment of `str.lower` and of the regex word-character class `\w` is
embedded. Pandas tables are lists of rows; `collections.Counter` is an
insertion-ordered association list.
-/

namespace BahasaGaul

/-- A Python string, as its sequence of code points. -/
abbrev Text := List Nat

/-- Encode a Lean string literal as a `Text` (code points). -/
def enc (s : String) : Text := s.data.map Char.toNat

/-- `str.lower` on one code point (ASCII fragment: `A`..`Z` map to `a`..`z`). -/
def lowerChar (c : Nat) : Nat := if 65 ≤ c ∧ c ≤ 90 then c + 32 else c

/-- `str.lower` on a text. -/
def lower (t : Text) : Text := t.map lowerChar

/-- The regex class `\w` (ASCII fragment): digits, letters, underscore. -/
def isWordChar (c : Nat) : Bool :=
  (48 ≤ c && c ≤ 57) || (65 ≤ c && c ≤ 90) || (97 ≤ c && c ≤ 122) || (c == 95)

/-- Helper for `tokenize`: `cur` is the current (reversed) run of word
characters. `re.findall(r'\b\w+\b', text)` returns exactly the maximal
runs of `\w` characters, in order. -/
def tokenizeAux : Text → Text → List Text
  | [], cur => if cur.isEmpty then [] else [cur.reverse]
  | c :: cs, cur =>
    if isWordChar c then tokenizeAux cs (c :: cur)
    else if cur.isEmpty then tokenizeAux cs cur
    else cur.reverse :: tokenizeAux cs []

/-- `re.findall(r'\b\w+\b', text)`: the maximal word-character runs of `text`. -/
def tokenize (t : Text) : List Text := tokenizeAux t []

/-- The accumulation loop of `detect_slang_words` (`main.py` lines 40-42):
for each word in order, append it to the result when it is in the dictionary. -/
def detectLoop (dict : List Text) : List Text → List Text
  | [] => []
  | w :: ws => if dict.contains w then w :: detectLoop dict ws else detectLoop dict ws

/-- `detect_slang_words(text, slang_dictionary)` (`main.py` lines 32-43):
lower-case the text, split it into word tokens, and collect, in order, the
tokens that are members of the dictionary. -/
def detect_slang_words (text : Text) (dict : List Text) : List Text :=
  detectLoop dict (tokenize (lower text))

/-- The fixed slang vocabulary of `analyze_news_and_slang`
(`main.py` lines 51-68). Membership is the only operation used on it,
so the Python set is embedded as a list. -/
def slang_dictionary : List Text :=
  [enc "gue", enc "lu", enc "elu", enc "gw", enc "loe", enc "gak", enc "nggak",
   enc "gada", enc "gaada",
   enc "udah", enc "udh", enc "dah", enc "udeh", enc "tuh", enc "teh", enc "mah",
   enc "dong", enc "deh",
   enc "sih", enc "nih", enc "mulu", enc "aja", enc "doang", enc "banget",
   enc "bgt", enc "bener",
   enc "viral", enc "netizen", enc "followers", enc "haters", enc "hits",
   enc "kece", enc "gercep",
   enc "gabut", enc "garing", enc "receh", enc "baper", enc "kepo", enc "julid",
   enc "glow up",
   enc "otw", enc "btw", enc "asap", enc "tfl", enc "gas", enc "gws", enc "hbd",
   enc "oot", enc "tbh",
   enc "fyi", enc "cmiiw", enc "imho", enc "tysm", enc "wkwk", enc "ttd", enc "pdf",
   enc "gegara", enc "santuy", enc "gokil", enc "cucok", enc "mantul", enc "mantap",
   enc "sultan",
   enc "auto", enc "anjay", enc "yakali", enc "sabi", enc "jutek", enc "lebay",
   enc "kzl"]

/-- A calendar date, the value of a parsed `Waktu` cell. -/
structure Date where
  year : Nat
  month : Nat
  day : Nat
deriving DecidableEq, Repr

/-- Chronological key for comparing dates. -/
def Date.key (d : Date) : Nat := d.year * 10000 + d.month * 100 + d.day

/-- Gregorian leap-year rule. -/
def isLeap (y : Nat) : Bool := y % 4 == 0 && (y % 100 != 0 || y % 400 == 0)

/-- Number of days of month `m` in year `y`. -/
def daysInMonth (y m : Nat) : Nat :=
  if m == 2 then (if isLeap y then 29 else 28)
  else if m == 4 || m == 6 || m == 9 || m == 11 then 30
  else 31

/-- Split a text at `/` (code point 47), like `"a/b/c".split("/")`. -/
def splitSlash : Text → Text → List Text
  | [], cur => [cur.reverse]
  | c :: cs, cur => if c == 47 then cur.reverse :: splitSlash cs [] else splitSlash cs (c :: cur)

/-- Read a run of ASCII digits as a number; `none` when empty or not all digits. -/
def digitsToNat : Text → Option Nat
  | t =>
    if t.isEmpty || !(t.all fun c => 48 ≤ c && c ≤ 57) then none
    else some (t.foldl (fun acc c => acc * 10 + (c - 48)) 0)

/-- `pd.to_datetime(x, format='%d/%m/%Y', errors='coerce')` on one cell
(`main.py` line 19): day (1-2 digits), month (1-2 digits), year (4 digits),
separated by `/`; the triple must be a real calendar date; any failure
yields a null (`none`) instead of an error. -/
def parseDate (t : Text) : Option Date :=
  match splitSlash t [] with
  | [ds, ms, ys] =>
    if ds.length ≤ 2 && ms.length ≤ 2 && ys.length == 4 then
      match digitsToNat ds, digitsToNat ms, digitsToNat ys with
      | some d, some m, some y =>
        if 1 ≤ m ∧ m ≤ 12 ∧ 1 ≤ d ∧ d ≤ daysInMonth y m then some ⟨y, m, d⟩ else none
      | _, _, _ => none
    else none
  | _ => none

/-- One raw CSV record, before date coercion: the ten positional columns of
`pd.read_csv(..., names=['Judul','Waktu','Link','Content','Tag1'..'Tag5','Source'])`.
Tag cells may be missing (`none`). -/
structure RawRow where
  judul : Text
  waktuStr : Text
  link : Text
  content : Text
  tag1 : Option Text
  tag2 : Option Text
  tag3 : Option Text
  tag4 : Option Text
  tag5 : Option Text
  source : Text
deriving DecidableEq, Repr

/-- One row of the loaded table, with `Waktu` coerced to a nullable date. -/
structure Row where
  judul : Text
  waktu : Option Date
  link : Text
  content : Text
  tag1 : Option Text
  tag2 : Option Text
  tag3 : Option Text
  tag4 : Option Text
  tag5 : Option Text
  source : Text
deriving DecidableEq, Repr

/-- Date coercion of one record (the `date_parser` applied to the `Waktu` column). -/
def loadRow (r : RawRow) : Row :=
  { judul := r.judul, waktu := parseDate r.waktuStr, link := r.link,
    content := r.content, tag1 := r.tag1, tag2 := r.tag2, tag3 := r.tag3,
    tag4 := r.tag4, tag5 := r.tag5, source := r.source }

/-- The loaded table: every record with its `Waktu` cell parsed. -/
def loadRows (raws : List RawRow) : List Row := raws.map loadRow

/-- `df['Waktu'].isnull().sum()` (`main.py` line 22): how many rows have a
null date. -/
def invalid_dates (df : List Row) : Nat := df.countP fun r => r.waktu.isNone

/-- `df['Waktu'].min()`: the chronologically least non-null date (pandas
`min` skips nulls), `none` on an all-null or empty column. -/
def minWaktu (df : List Row) : Option Date :=
  (df.filterMap Row.waktu).foldl
    (fun acc d => match acc with
      | none => some d
      | some m => some (if d.key < m.key then d else m))
    none

/-- `df['Waktu'].max()`: the chronologically greatest non-null date. -/
def maxWaktu (df : List Row) : Option Date :=
  (df.filterMap Row.waktu).foldl
    (fun acc d => match acc with
      | none => some d
      | some m => some (if m.key < d.key then d else m))
    none

/-- `(df['Waktu'].min(), df['Waktu'].max())` (`main.py` line 73). -/
def periode (df : List Row) : Option Date × Option Date := (minWaktu df, maxWaktu df)

/-- `load_data` (`main.py` lines 9-29): reading the CSV may fail with an
exception (modelled as the `Except.error` input); the handler returns
`None` and prints a message instead of raising. On success the parsed
table is returned, with a warning line when some dates were invalid. -/
def load_data (input : Except String (List RawRow)) : Option (List Row) × List String :=
  match input with
  | .error e => (none, ["Error saat memuat data: " ++ e])
  | .ok raws =>
    let df := loadRows raws
    (some df,
      if 0 < invalid_dates df
      then ["Peringatan: format tanggal tidak valid"]
      else [])

/-- The steps of `main` (`main.py` lines 277-299). -/
inductive Step where
  | load
  | analyze
  | render_viz
  | render_report
deriving DecidableEq, Repr

/-- `main` (`main.py` lines 277-299): load, then — only when the loader
returned a table (`if df is not None`) — analyze and render. -/
def mainSteps (input : Except String (List RawRow)) : List Step :=
  match (load_data input).1 with
  | none => [Step.load]
  | some _ => [Step.load, Step.analyze, Step.render_viz, Step.render_report]

/-- A `collections.Counter` (and a pandas hashtable of counts): an
association list whose keys appear in first-insertion order. -/
abbrev Counter := List (Text × Nat)

/-- Add one occurrence of `x`: increment its entry, or append a fresh
`(x, 1)` entry at the end (dicts preserve insertion order). -/
def insertCount : Counter → Text → Counter
  | [], x => [(x, 1)]
  | (y, n) :: rest, x =>
    if y == x then (y, n + 1) :: rest else (y, n) :: insertCount rest x

/-- `Counter.update(ws)`: add one occurrence of every element of `ws`. -/
def counterUpdate (c : Counter) (ws : List Text) : Counter := ws.foldl insertCount c

/-- Look a key up in a counter (first matching entry); an absent key
behaves as zero, as in `Counter.__getitem__`. -/
def counterGet : Counter → Text → Nat
  | [], _ => 0
  | (y, n) :: rest, w => if y == w then n else counterGet rest w

/-- The total of all counts in a counter. -/
def sumVals (c : Counter) : Nat := (c.map Prod.snd).sum

/-- The multiset of value counts of a column, in first-occurrence order
(the hashtable pass of `Series.value_counts`). -/
def countsInOrder (xs : List Text) : Counter := xs.foldl insertCount []

/-- `Series.value_counts()`: count every value, then sort by descending
count; the sort is stable, so ties keep first-occurrence order. -/
def value_counts (xs : List Text) : Counter :=
  (countsInOrder xs).mergeSort (fun a b => b.2 ≤ a.2)

/-- One entry of `results['contoh_berita_gaul']` (`main.py` lines 107-112).
`kata_gaul` is `list(set(...))`: a Python set has no specified order, so it
is embedded as a `Finset`. -/
structure Contoh where
  judul : Text
  waktu : Option Date
  source : Text
  kata_gaul : Finset Text
deriving DecidableEq

/-- The mutable slang statistics threaded through the row loop of
`analyze_news_and_slang` (`main.py` lines 80-84 initialisation). -/
structure SlangAcc where
  judulCount : Nat
  kontenCount : Nat
  freq : Counter
  perSumber : Counter
  contoh : List Contoh

/-- The zero statistics (`main.py` lines 80-84). -/
def initAcc : SlangAcc := ⟨0, 0, [], [], []⟩

/-- Whether a row matched at all: `if slang_in_title or slang_in_content`. -/
def rowMatches (r : Row) : Bool :=
  !(detect_slang_words r.judul slang_dictionary).isEmpty
    || !(detect_slang_words r.content slang_dictionary).isEmpty

/-- The example record appended for a matching row (`main.py` lines 107-112):
title, timestamp, source, and the set of words matched in title or content. -/
def mkContoh (r : Row) : Contoh :=
  { judul := r.judul, waktu := r.waktu, source := r.source,
    kata_gaul := (detect_slang_words r.judul slang_dictionary
      ++ detect_slang_words r.content slang_dictionary).toFinset }

/-- One iteration of the row loop (`main.py` lines 88-112): detect slang in
title and content; a non-empty title detection bumps the title counter and
folds its words into the frequency counter; likewise for content; when
either matched, bump the row's source counter, and append an example record
while fewer than 5 have been collected. -/
def processRow (acc : SlangAcc) (row : Row) : SlangAcc :=
  let slang_in_title := detect_slang_words row.judul slang_dictionary
  let slang_in_content := detect_slang_words row.content slang_dictionary
  let acc1 :=
    if slang_in_title.isEmpty then acc
    else { acc with judulCount := acc.judulCount + 1,
                    freq := counterUpdate acc.freq slang_in_title }
  let acc2 :=
    if slang_in_content.isEmpty then acc1
    else { acc1 with kontenCount := acc1.kontenCount + 1,
                     freq := counterUpdate acc1.freq slang_in_content }
  if slang_in_title.isEmpty && slang_in_content.isEmpty then acc2
  else
    let acc3 := { acc2 with perSumber := insertCount acc2.perSumber row.source }
    if acc3.contoh.length < 5 then { acc3 with contoh := acc3.contoh ++ [mkContoh row] }
    else acc3

/-- The five tag columns pooled into one column
(`pd.concat([df['Tag1'], ..., df['Tag5']])`), with null cells dropped as
`value_counts` drops them. -/
def tagsPool (df : List Row) : List Text :=
  (df.map Row.tag1).filterMap id ++ (df.map Row.tag2).filterMap id
    ++ (df.map Row.tag3).filterMap id ++ (df.map Row.tag4).filterMap id
    ++ (df.map Row.tag5).filterMap id

/-- The analysis result record (`main.py` lines 71-85). `berita_per_hari`
(the groupby-size mapping) is embedded separately as a function of the
table, see `berita_per_hari`. -/
structure Results where
  total_berita : Nat
  periode : Option Date × Option Date
  sumber_berita : Counter
  top_tags : Counter
  berita_dengan_gaul_judul : Nat
  berita_dengan_gaul_konten : Nat
  frekuensi_kata_gaul : Counter
  berita_gaul_per_sumber : Counter
  contoh_berita_gaul : List Contoh

/-- `df.groupby(df['Waktu'].dt.date).size()` (`main.py` line 77) as a
mapping from day to row count; rows with a null date belong to no group. -/
def berita_per_hari (df : List Row) (d : Date) : Nat :=
  df.countP fun r => r.waktu == some d

/-- `analyze_news_and_slang` (`main.py` lines 46-114): the basic statistics
plus the slang statistics accumulated by the row loop. -/
def analyze_news_and_slang (df : List Row) : Results :=
  let acc := df.foldl processRow initAcc
  { total_berita := df.length,
    periode := periode df,
    sumber_berita := value_counts (df.map Row.source),
    top_tags := (value_counts (tagsPool df)).take 10,
    berita_dengan_gaul_judul := acc.judulCount,
    berita_dengan_gaul_konten := acc.kontenCount,
    frekuensi_kata_gaul := acc.freq,
    berita_gaul_per_sumber := acc.perSumber,
    contoh_berita_gaul := acc.contoh }

/-- The word selection of the "10 Kata Gaul Terpopuler" chart
(`main.py` lines 166-168): `pd.DataFrame.from_dict(counter).head(10)`
keeps the first 10 entries of the counter in dict (insertion) order. -/
def topWordsChart (r : Results) : Counter := r.frekuensi_kata_gaul.take 10

/-- Whether the successive counts of a counter are in descending order. -/
def descByCount : Counter → Bool
  | [] => true
  | [_] => true
  | a :: b :: rest => (b.2 ≤ a.2) && descByCount (b :: rest)

/-! ### Concrete instances used as test inputs -/

/-- The row of the spec's example scenario: title "Gue Suka Banget",
content "Berita biasa". -/
def exampleRow : Row :=
  { judul := enc "Gue Suka Banget", waktu := some ⟨2024, 1, 5⟩,
    link := enc "https://x/1", content := enc "Berita biasa",
    tag1 := some (enc "Jokowi"), tag2 := none, tag3 := none, tag4 := none,
    tag5 := none, source := enc "Detik" }

/-- A row with no slang at all. -/
def plainRow : Row :=
  { judul := enc "Berita biasa", waktu := some ⟨2024, 1, 6⟩,
    link := enc "https://x/2", content := enc "Politik hari ini",
    tag1 := none, tag2 := none, tag3 := none, tag4 := none,
    tag5 := none, source := enc "Kompas" }

/-- A row whose title inserts "aja" (once) into the frequency counter
before "gue" (twice). -/
def ajaGueRow : Row :=
  { judul := enc "aja gue gue", waktu := some ⟨2024, 2, 1⟩,
    link := enc "https://x/3", content := enc "Tanpa kata khusus",
    tag1 := none, tag2 := none, tag3 := none, tag4 := none,
    tag5 := none, source := enc "Tempo" }

/-- A row with the same slang word in both title and content. -/
def bothFieldsRow : Row :=
  { judul := enc "Gue suka ini", waktu := some ⟨2024, 3, 1⟩,
    link := enc "https://x/4", content := enc "kata gue juga",
    tag1 := none, tag2 := none, tag3 := none, tag4 := none,
    tag5 := none, source := enc "Detik" }

/-- A raw record with a well-formed date. -/
def rawGood : RawRow :=
  { judul := enc "Berita pertama", waktuStr := enc "01/01/2024",
    link := enc "https://x/5", content := enc "Isi berita",
    tag1 := none, tag2 := none, tag3 := none, tag4 := none,
    tag5 := none, source := enc "Detik" }

/-- A raw record whose date cell "31/02/2024" is not a real calendar date. -/
def rawBad : RawRow :=
  { judul := enc "Berita kedua", waktuStr := enc "31/02/2024",
    link := enc "https://x/6", content := enc "Isi lain",
    tag1 := none, tag2 := none, tag3 := none, tag4 := none,
    tag5 := none, source := enc "Tempo" }

/-! ### Lemmas about the tokenizer and the detector -/

theorem detectLoop_eq_filter (dict : List Text) (ws : List Text) :
    detectLoop dict ws = ws.filter (fun w => dict.contains w) := by
  induction ws with
  | nil => rfl
  | cons w ws ih =>
    simp only [detectLoop, List.filter_cons, ih]

theorem map_fixed_eq_self (f : Nat → Nat) :
    ∀ l : List Nat, (∀ c ∈ l, f c = c) → l.map f = l := by
  intro l h
  induction l with
  | nil => rfl
  | cons c cs ih =>
    simp only [List.map_cons]
    rw [h c (by simp), ih fun x hx => h x (by simp [hx])]

theorem lowerChar_idem (c : Nat) : lowerChar (lowerChar c) = lowerChar c := by
  unfold lowerChar
  split_ifs <;> omega

/-- Every character of every token of `tokenizeAux t cur` comes from `t` or
from the pending run `cur`, so a character-level property of the input is
inherited by the tokens. -/
theorem tokenizeAux_chars (P : Nat → Prop) :
    ∀ (t cur : Text), (∀ c ∈ t, P c) → (∀ c ∈ cur, P c) →
      ∀ tok ∈ tokenizeAux t cur, ∀ c ∈ tok, P c := by
  intro t
  induction t with
  | nil =>
    intro cur _ hcur tok htok c hc
    by_cases he : cur.isEmpty <;> simp [tokenizeAux, he] at htok
    subst htok
    exact hcur c (by simpa using hc)
  | cons a t ih =>
    intro cur ht hcur tok htok
    have hta : ∀ c ∈ t, P c := fun c hc => ht c (by simp [hc])
    by_cases hw : isWordChar a
    · simp only [tokenizeAux, if_pos hw] at htok
      refine ih (a :: cur) hta ?_ tok htok
      intro c hc
      rcases List.mem_cons.mp hc with h | h
      · exact h ▸ ht a (by simp)
      · exact hcur c h
    · simp only [tokenizeAux, if_neg hw] at htok
      by_cases he : cur.isEmpty
      · simp only [if_pos he] at htok
        exact ih cur hta hcur tok htok
      · simp only [if_neg he] at htok
        rcases List.mem_cons.mp htok with h | h
        · subst h
          intro c hc
          exact hcur c (by simpa using hc)
        · exact ih [] hta (by simp) tok h

/-- Every character of every token is a word character: only word
characters are ever pushed onto the pending run. -/
theorem tokenizeAux_wordChars :
    ∀ (t cur : Text), (∀ c ∈ cur, isWordChar c = true) →
      ∀ tok ∈ tokenizeAux t cur, ∀ c ∈ tok, isWordChar c = true := by
  intro t
  induction t with
  | nil =>
    intro cur hcur tok htok c hc
    by_cases he : cur.isEmpty <;> simp [tokenizeAux, he] at htok
    subst htok
    exact hcur c (by simpa using hc)
  | cons a t ih =>
    intro cur hcur tok htok
    by_cases hw : isWordChar a
    · simp only [tokenizeAux, if_pos hw] at htok
      refine ih (a :: cur) ?_ tok htok
      intro c hc
      rcases List.mem_cons.mp hc with h | h
      · exact h ▸ hw
      · exact hcur c h
    · simp only [tokenizeAux, if_neg hw] at htok
      by_cases he : cur.isEmpty
      · simp only [if_pos he] at htok
        exact ih cur hcur tok htok
      · simp only [if_neg he] at htok
        rcases List.mem_cons.mp htok with h | h
        · subst h
          intro c hc
          exact hcur c (by simpa using hc)
        · exact ih [] (by simp) tok h

/-- Every token of the lower-cased text is fixed by lower-casing. -/
theorem tokens_of_lower_are_lower (t : Text) :
    ∀ tok ∈ tokenize (lower t), lower tok = tok := by
  intro tok htok
  have hchars : ∀ c ∈ tok, lowerChar c = c := by
    refine tokenizeAux_chars (fun c => lowerChar c = c) (lower t) [] ?_ (by simp) tok htok
    intro c hc
    rcases List.mem_map.mp hc with ⟨c0, _, rfl⟩
    exact lowerChar_idem c0
  exact map_fixed_eq_self lowerChar tok hchars

/-! ### Lemmas about counters -/

theorem counterGet_insertCount (c : Counter) (x w : Text) :
    counterGet (insertCount c x) w = counterGet c w + (if x = w then 1 else 0) := by
  induction c with
  | nil => by_cases h : x = w <;> simp [insertCount, counterGet, h]
  | cons p rest ih =>
    obtain ⟨y, n⟩ := p
    by_cases hyx : y = x
    · subst hyx
      by_cases hyw : y = w <;> simp [insertCount, counterGet, hyw]
    · by_cases hyw : y = w
      · subst hyw
        have hxw : ¬(x = y) := fun h => hyx h.symm
        simp [insertCount, counterGet, hyx, hxw]
      · simp [insertCount, counterGet, hyx, hyw, ih]

theorem counterGet_foldl_insertCount :
    ∀ (xs : List Text) (c : Counter) (w : Text),
      counterGet (xs.foldl insertCount c) w = counterGet c w + xs.count w := by
  intro xs
  induction xs with
  | nil => simp
  | cons x xs ih =>
    intro c w
    simp only [List.foldl_cons, ih, counterGet_insertCount, List.count_cons]
    by_cases h : x = w <;> simp [h, beq_iff_eq] <;> omega

theorem counterGet_counterUpdate (c : Counter) (ws : List Text) (w : Text) :
    counterGet (counterUpdate c ws) w = counterGet c w + ws.count w :=
  counterGet_foldl_insertCount ws c w

theorem counterGet_countsInOrder (xs : List Text) (w : Text) :
    counterGet (countsInOrder xs) w = xs.count w := by
  simpa [counterGet] using counterGet_foldl_insertCount xs [] w

theorem sumVals_insertCount (c : Counter) (x : Text) :
    sumVals (insertCount c x) = sumVals c + 1 := by
  induction c with
  | nil => simp [insertCount, sumVals]
  | cons p rest ih =>
    obtain ⟨y, n⟩ := p
    by_cases h : y = x <;> simp [insertCount, h, sumVals] at * <;> omega

theorem sumVals_foldl_insertCount :
    ∀ (xs : List Text) (c : Counter),
      sumVals (xs.foldl insertCount c) = sumVals c + xs.length := by
  intro xs
  induction xs with
  | nil => simp
  | cons x xs ih =>
    intro c
    simp only [List.foldl_cons, ih, sumVals_insertCount, List.length_cons]
    omega

theorem sumVals_countsInOrder (xs : List Text) :
    sumVals (countsInOrder xs) = xs.length := by
  simpa [sumVals] using sumVals_foldl_insertCount xs []

theorem sumVals_value_counts (xs : List Text) :
    sumVals (value_counts xs) = xs.length := by
  have hperm := ((countsInOrder xs).mergeSort_perm (fun a b => b.2 ≤ a.2)).map Prod.snd
  unfold value_counts sumVals
  rw [hperm.sum_eq]
  exact sumVals_countsInOrder xs

/-- The value stored under any one key is at most the counter's total. -/
theorem counterGet_le_sumVals (c : Counter) (w : Text) :
    counterGet c w ≤ sumVals c := by
  induction c with
  | nil => simp [counterGet]
  | cons p rest ih =>
    obtain ⟨y, n⟩ := p
    by_cases h : y = w <;> simp [counterGet, h, sumVals] at * <;> omega

theorem keys_insertCount (c : Counter) (x : Text) :
    (insertCount c x).map Prod.fst
      = if x ∈ c.map Prod.fst then c.map Prod.fst else c.map Prod.fst ++ [x] := by
  induction c with
  | nil => simp [insertCount]
  | cons p rest ih =>
    obtain ⟨y, n⟩ := p
    by_cases h : y = x
    · subst h
      simp [insertCount]
    · have hxy : ¬(x = y) := fun hh => h hh.symm
      by_cases hm : x ∈ rest.map Prod.fst <;>
        simp [insertCount, h, hxy, hm, ih]

theorem nodup_keys_insertCount (c : Counter) (x : Text)
    (h : (c.map Prod.fst).Nodup) : ((insertCount c x).map Prod.fst).Nodup := by
  rw [keys_insertCount]
  by_cases hm : x ∈ c.map Prod.fst
  · simpa [hm] using h
  · simp [hm, List.nodup_append, h]

theorem nodup_keys_foldl_insertCount :
    ∀ (xs : List Text) (c : Counter), (c.map Prod.fst).Nodup →
      ((xs.foldl insertCount c).map Prod.fst).Nodup := by
  intro xs
  induction xs with
  | nil => exact fun c hc => hc
  | cons x xs ih => exact fun c hc => ih _ (nodup_keys_insertCount c x hc)

theorem nodup_keys_countsInOrder (xs : List Text) :
    ((countsInOrder xs).map Prod.fst).Nodup :=
  nodup_keys_foldl_insertCount xs [] (by simp)

/-- On a counter with no duplicate keys, a lookup is the total of the
entries filtered to that key; this form is invariant under permutation. -/
theorem counterGet_eq_sum_filter (c : Counter) (w : Text)
    (hnd : (c.map Prod.fst).Nodup) :
    counterGet c w = sumVals (c.filter fun p => p.1 == w) := by
  induction c with
  | nil => simp [counterGet, sumVals]
  | cons p rest ih =>
    obtain ⟨y, n⟩ := p
    simp only [List.map_cons, List.nodup_cons] at hnd
    by_cases h : y = w
    · subst h
      have hrest : rest.filter (fun p => p.1 == y) = [] := by
        refine List.filter_eq_nil_iff.mpr ?_
        intro q hq hbeq
        have hq1 : q.1 = y := by simpa using hbeq
        exact hnd.1 (hq1 ▸ List.mem_map_of_mem Prod.fst hq)
      simp [counterGet, sumVals, List.filter_cons, hrest]
    · simp [counterGet, sumVals, List.filter_cons, h, ih hnd.2]

theorem counterGet_perm (c₁ c₂ : Counter) (h : c₁.Perm c₂)
    (hnd : (c₁.map Prod.fst).Nodup) (w : Text) :
    counterGet c₁ w = counterGet c₂ w := by
  have hnd₂ : (c₂.map Prod.fst).Nodup := (h.map Prod.fst).nodup_iff.mp hnd
  rw [counterGet_eq_sum_filter c₁ w hnd, counterGet_eq_sum_filter c₂ w hnd₂]
  unfold sumVals
  exact ((h.filter _).map Prod.snd).sum_eq

theorem counterGet_value_counts (xs : List Text) (w : Text) :
    counterGet (value_counts xs) w = xs.count w := by
  have hperm := (countsInOrder xs).mergeSort_perm (fun a b => b.2 ≤ a.2)
  have hnd : ((value_counts xs).map Prod.fst).Nodup :=
    (hperm.map Prod.fst).nodup_iff.mpr (nodup_keys_countsInOrder xs)
  rw [value_counts] at hnd ⊢
  rw [counterGet_perm _ _ hperm hnd w]
  exact counterGet_countsInOrder xs w

/-! ### Lemmas about the row loop of the aggregator -/

theorem processRow_judulCount (acc : SlangAcc) (r : Row) :
    (processRow acc r).judulCount
      = acc.judulCount
        + (if (detect_slang_words r.judul slang_dictionary).isEmpty then 0 else 1) := by
  unfold processRow
  by_cases h1 : detect_slang_words r.judul slang_dictionary = [] <;>
  by_cases h2 : detect_slang_words r.content slang_dictionary = [] <;>
  simp [List.isEmpty_iff, h1, h2] <;> try (split_ifs <;> simp)

theorem processRow_kontenCount (acc : SlangAcc) (r : Row) :
    (processRow acc r).kontenCount
      = acc.kontenCount
        + (if (detect_slang_words r.content slang_dictionary).isEmpty then 0 else 1) := by
  unfold processRow
  by_cases h1 : detect_slang_words r.judul slang_dictionary = [] <;>
  by_cases h2 : detect_slang_words r.content slang_dictionary = [] <;>
  simp [List.isEmpty_iff, h1, h2] <;> try (split_ifs <;> simp)

theorem processRow_freq (acc : SlangAcc) (r : Row) (w : Text) :
    counterGet (processRow acc r).freq w
      = counterGet acc.freq w
        + (detect_slang_words r.judul slang_dictionary).count w
        + (detect_slang_words r.content slang_dictionary).count w := by
  unfold processRow
  by_cases h1 : detect_slang_words r.judul slang_dictionary = [] <;>
  by_cases h2 : detect_slang_words r.content slang_dictionary = [] <;>
  simp [List.isEmpty_iff, h1, h2, counterGet_counterUpdate] <;>
  try (split_ifs <;> simp [counterGet_counterUpdate] <;> omega)

theorem processRow_perSumber (acc : SlangAcc) (r : Row) (s : Text) :
    counterGet (processRow acc r).perSumber s
      = counterGet acc.perSumber s
        + (if rowMatches r && (r.source == s) then 1 else 0) := by
  unfold processRow rowMatches
  by_cases h1 : detect_slang_words r.judul slang_dictionary = [] <;>
  by_cases h2 : detect_slang_words r.content slang_dictionary = [] <;>
  simp [List.isEmpty_iff, h1, h2, counterGet_insertCount, beq_iff_eq] <;>
  try (split_ifs <;> simp_all [counterGet_insertCount, beq_iff_eq])

theorem processRow_contoh (acc : SlangAcc) (r : Row) :
    (processRow acc r).contoh
      = if rowMatches r ∧ acc.contoh.length < 5 then acc.contoh ++ [mkContoh r]
        else acc.contoh := by
  unfold processRow rowMatches
  by_cases h1 : detect_slang_words r.judul slang_dictionary = [] <;>
  by_cases h2 : detect_slang_words r.content slang_dictionary = [] <;>
  simp [List.isEmpty_iff, h1, h2] <;> try (split_ifs <;> simp_all)

theorem foldl_judulCount :
    ∀ (df : List Row) (acc : SlangAcc),
      (df.foldl processRow acc).judulCount
        = acc.judulCount
          + df.countP (fun r => !(detect_slang_words r.judul slang_dictionary).isEmpty) := by
  intro df
  induction df with
  | nil => simp
  | cons r df ih =>
    intro acc
    simp only [List.foldl_cons, ih, processRow_judulCount, List.countP_cons]
    by_cases h : (detect_slang_words r.judul slang_dictionary).isEmpty <;>
      simp [h] <;> omega

theorem foldl_kontenCount :
    ∀ (df : List Row) (acc : SlangAcc),
      (df.foldl processRow acc).kontenCount
        = acc.kontenCount
          + df.countP (fun r => !(detect_slang_words r.content slang_dictionary).isEmpty) := by
  intro df
  induction df with
  | nil => simp
  | cons r df ih =>
    intro acc
    simp only [List.foldl_cons, ih, processRow_kontenCount, List.countP_cons]
    by_cases h : (detect_slang_words r.content slang_dictionary).isEmpty <;>
      simp [h] <;> omega

/-- Each row contributes its title occurrences plus its content occurrences
of `w` to the frequency counter. -/
theorem foldl_freq :
    ∀ (df : List Row) (acc : SlangAcc) (w : Text),
      counterGet (df.foldl processRow acc).freq w
        = counterGet acc.freq w
          + (df.map (fun r => (detect_slang_words r.judul slang_dictionary).count w
              + (detect_slang_words r.content slang_dictionary).count w)).sum := by
  intro df
  induction df with
  | nil => simp
  | cons r df ih =>
    intro acc w
    simp only [List.foldl_cons, ih, processRow_freq, List.map_cons, List.sum_cons]
    omega

theorem foldl_perSumber :
    ∀ (df : List Row) (acc : SlangAcc) (s : Text),
      counterGet (df.foldl processRow acc).perSumber s
        = counterGet acc.perSumber s
          + df.countP (fun r => rowMatches r && (r.source == s)) := by
  intro df
  induction df with
  | nil => simp
  | cons r df ih =>
    intro acc s
    simp only [List.foldl_cons, ih, processRow_perSumber, List.countP_cons]
    by_cases h : rowMatches r && (r.source == s) <;> simp [h] <;> omega

/-- The example list collects the first `5 - |collected|` matching rows. -/
theorem foldl_contoh :
    ∀ (df : List Row) (acc : SlangAcc),
      (df.foldl processRow acc).contoh
        = acc.contoh
          ++ ((df.filter rowMatches).map mkContoh).take (5 - acc.contoh.length) := by
  intro df
  induction df with
  | nil => intro acc; simp
  | cons r df ih =>
    intro acc
    simp only [List.foldl_cons, List.filter_cons]
    by_cases hm : rowMatches r
    · simp only [if_pos hm]
      by_cases hlen : acc.contoh.length < 5
      · have hstep : (processRow acc r).contoh = acc.contoh ++ [mkContoh r] := by
          rw [processRow_contoh]
          simp [hm, hlen]
        rw [ih (processRow acc r), hstep]
        simp only [List.map_cons, List.length_append, List.length_singleton]
        have h5 : 5 - acc.contoh.length = (5 - (acc.contoh.length + 1)) + 1 := by omega
        rw [h5, List.take_succ_cons, List.append_assoc]
        simp
      · have hstep : (processRow acc r).contoh = acc.contoh := by
          rw [processRow_contoh]
          simp [hlen]
        rw [ih (processRow acc r), hstep]
        have h0 : 5 - acc.contoh.length = 0 := by omega
        simp [h0]
    · have hstep : (processRow acc r).contoh = acc.contoh := by
        rw [processRow_contoh]
        simp [hm]
      rw [if_neg hm, ih (processRow acc r), hstep]

/-! ### Characterizations of the analysis result fields -/

theorem analyze_judul (df : List Row) :
    (analyze_news_and_slang df).berita_dengan_gaul_judul
      = df.countP (fun r => !(detect_slang_words r.judul slang_dictionary).isEmpty) := by
  simp [analyze_news_and_slang, foldl_judulCount, initAcc]

theorem analyze_konten (df : List Row) :
    (analyze_news_and_slang df).berita_dengan_gaul_konten
      = df.countP (fun r => !(detect_slang_words r.content slang_dictionary).isEmpty) := by
  simp [analyze_news_and_slang, foldl_kontenCount, initAcc]

theorem analyze_freq (df : List Row) (w : Text) :
    counterGet (analyze_news_and_slang df).frekuensi_kata_gaul w
      = (df.map (fun r => (detect_slang_words r.judul slang_dictionary).count w
          + (detect_slang_words r.content slang_dictionary).count w)).sum := by
  simp [analyze_news_and_slang, foldl_freq, initAcc, counterGet]

theorem analyze_perSumber (df : List Row) (s : Text) :
    counterGet (analyze_news_and_slang df).berita_gaul_per_sumber s
      = df.countP (fun r => rowMatches r && (r.source == s)) := by
  simp [analyze_news_and_slang, foldl_perSumber, initAcc, counterGet]

theorem analyze_contoh (df : List Row) :
    (analyze_news_and_slang df).contoh_berita_gaul
      = ((df.filter rowMatches).map mkContoh).take 5 := by
  simp [analyze_news_and_slang, foldl_contoh, initAcc]

theorem analyze_total (df : List Row) :
    (analyze_news_and_slang df).total_berita = df.length := by
  simp [analyze_news_and_slang]

theorem analyze_sumber (df : List Row) (s : Text) :
    counterGet (analyze_news_and_slang df).sumber_berita s
      = (df.map Row.source).count s := by
  simp [analyze_news_and_slang, counterGet_value_counts]

theorem detect_eq_filter (t : Text) (dict : List Text) :
    detect_slang_words t dict
      = (tokenize (lower t)).filter (fun w => dict.contains w) :=
  detectLoop_eq_filter dict (tokenize (lower t))

/-- A text containing a non-word character is never a token. -/
theorem not_token_of_nonword (s w : Text) (c : Nat) (hc : c ∈ w)
    (hnw : isWordChar c = false) : w ∉ tokenize s := by
  intro hmem
  have hword := tokenizeAux_wordChars s [] (by simp) w hmem c hc
  rw [hnw] at hword
  exact Bool.false_ne_true hword

/-! ### Claim theorems -/

/-- C1: the detector lower-cases the text, splits it into word tokens, and
returns exactly the ordered subsequence of those tokens that are members of
the vocabulary, preserving duplicates and order of occurrence; the result
is a sublist of the tokens of the lower-cased input and every returned
token is a lower-case member of the vocabulary. -/
theorem detector_returns_vocab_subsequence (t : Text) (dict : List Text) :
    detect_slang_words t dict = (tokenize (lower t)).filter (fun w => dict.contains w)
    ∧ (detect_slang_words t dict).Sublist (tokenize (lower t))
    ∧ ∀ w ∈ detect_slang_words t dict, w ∈ dict ∧ lower w = w := by
  refine ⟨detect_eq_filter t dict, ?_, ?_⟩
  · rw [detect_eq_filter]
    exact List.filter_sublist _
  · intro w hw
    rw [detect_eq_filter] at hw
    refine ⟨?_, tokens_of_lower_are_lower t w (List.mem_of_mem_filter hw)⟩
    have hcont := List.of_mem_filter hw
    simpa using hcont

/-- C2: for every loaded table, the per-source row counts of the analysis
result sum to the total row count. -/
theorem source_counts_sum_to_total (df : List Row) :
    sumVals (analyze_news_and_slang df).sumber_berita
      = (analyze_news_and_slang df).total_berita := by
  simp [analyze_news_and_slang, sumVals_value_counts]

/-- C4: the aggregator's example list holds at most 5 records, namely the
records of the first 5 rows in table order whose title or content matched,
each built by `mkContoh` (title, timestamp, source, deduplicated union of
matched words). -/
theorem example_list_first_five_matches (df : List Row) :
    (analyze_news_and_slang df).contoh_berita_gaul
      = ((df.filter rowMatches).take 5).map mkContoh
    ∧ (analyze_news_and_slang df).contoh_berita_gaul.length ≤ 5 := by
  constructor
  · rw [analyze_contoh, List.map_take]
  · rw [analyze_contoh]
    exact List.length_take_le 5 _

/-- C10: the vocabulary entry "glow up" contains a space, word tokens never
do, so the detector can never return it and it contributes zero to the
corpus-wide frequency counter on every table. -/
theorem glow_up_entry_dead (t : Text) (df : List Row) :
    enc "glow up" ∉ detect_slang_words t slang_dictionary
    ∧ counterGet (analyze_news_and_slang df).frekuensi_kata_gaul (enc "glow up") = 0 := by
  have hnot : ∀ s : Text, enc "glow up" ∉ tokenize s := fun s =>
    not_token_of_nonword s _ 32 (by decide) (by decide)
  constructor
  · intro hmem
    rw [detect_eq_filter] at hmem
    exact hnot (lower t) (List.mem_of_mem_filter hmem)
  · rw [analyze_freq]
    refine List.sum_eq_zero ?_
    intro x hx
    rcases List.mem_map.mp hx with ⟨r, _, rfl⟩
    have h1 : (detect_slang_words r.judul slang_dictionary).count (enc "glow up") = 0 := by
      refine List.count_eq_zero.mpr ?_
      intro hmem
      rw [detect_eq_filter] at hmem
      exact hnot _ (List.mem_of_mem_filter hmem)
    have h2 : (detect_slang_words r.content slang_dictionary).count (enc "glow up") = 0 := by
      refine List.count_eq_zero.mpr ?_
      intro hmem
      rw [detect_eq_filter] at hmem
      exact hnot _ (List.mem_of_mem_filter hmem)
    omega

/-- C5: a word detected at least once in a row's title and at least once in
its content is counted from both fields: the row contributes its title
occurrences plus its content occurrences to the frequency counter, and the
counter's total bounds each individual word's count. -/
theorem word_counted_from_both_fields (df₁ df₂ : List Row) (r : Row) (w : Text)
    (ht : w ∈ detect_slang_words r.judul slang_dictionary)
    (hc : w ∈ detect_slang_words r.content slang_dictionary) :
    counterGet (analyze_news_and_slang (df₁ ++ r :: df₂)).frekuensi_kata_gaul w
      = counterGet (analyze_news_and_slang (df₁ ++ df₂)).frekuensi_kata_gaul w
        + (detect_slang_words r.judul slang_dictionary).count w
        + (detect_slang_words r.content slang_dictionary).count w
    ∧ 1 ≤ (detect_slang_words r.judul slang_dictionary).count w
    ∧ 1 ≤ (detect_slang_words r.content slang_dictionary).count w
    ∧ counterGet (analyze_news_and_slang (df₁ ++ r :: df₂)).frekuensi_kata_gaul w
        ≤ sumVals (analyze_news_and_slang (df₁ ++ r :: df₂)).frekuensi_kata_gaul := by
  refine ⟨?_, List.count_pos_iff.mpr ht, List.count_pos_iff.mpr hc, ?_⟩
  · rw [analyze_freq, analyze_freq]
    simp only [List.map_append, List.sum_append, List.map_cons, List.sum_cons]
    omega
  · exact counterGet_le_sumVals _ w

theorem word_counted_from_both_fields_witness :
    enc "gue" ∈ detect_slang_words bothFieldsRow.judul slang_dictionary
    ∧ 1 ≤ (detect_slang_words bothFieldsRow.judul slang_dictionary).count (enc "gue") :=
  ⟨by decide,
   (word_counted_from_both_fields [] [] bothFieldsRow (enc "gue")
     (by decide) (by decide)).2.1⟩

/-- C6: permuting the rows of the table leaves every final aggregate count
unchanged: total row count, title-slang counter, content-slang counter, the
frequency counter, the per-source slang-article counts, the per-source row
counts, and the per-day counts. -/
theorem aggregate_counts_perm_invariant (df₁ df₂ : List Row) (h : df₁.Perm df₂)
    (w s : Text) (d : Date) :
    (analyze_news_and_slang df₁).total_berita
        = (analyze_news_and_slang df₂).total_berita
    ∧ (analyze_news_and_slang df₁).berita_dengan_gaul_judul
        = (analyze_news_and_slang df₂).berita_dengan_gaul_judul
    ∧ (analyze_news_and_slang df₁).berita_dengan_gaul_konten
        = (analyze_news_and_slang df₂).berita_dengan_gaul_konten
    ∧ counterGet (analyze_news_and_slang df₁).frekuensi_kata_gaul w
        = counterGet (analyze_news_and_slang df₂).frekuensi_kata_gaul w
    ∧ counterGet (analyze_news_and_slang df₁).berita_gaul_per_sumber s
        = counterGet (analyze_news_and_slang df₂).berita_gaul_per_sumber s
    ∧ counterGet (analyze_news_and_slang df₁).sumber_berita s
        = counterGet (analyze_news_and_slang df₂).sumber_berita s
    ∧ berita_per_hari df₁ d = berita_per_hari df₂ d := by
  refine ⟨?_, ?_, ?_, ?_, ?_, ?_, ?_⟩
  · rw [analyze_total, analyze_total]
    exact h.length_eq
  · rw [analyze_judul, analyze_judul]
    exact h.countP_eq _
  · rw [analyze_konten, analyze_konten]
    exact h.countP_eq _
  · rw [analyze_freq, analyze_freq]
    exact ((h.map _).sum_eq)
  · rw [analyze_perSumber, analyze_perSumber]
    exact h.countP_eq _
  · rw [analyze_sumber, analyze_sumber]
    simp only [List.count]
    exact (h.map Row.source).countP_eq _
  · exact h.countP_eq _

theorem aggregate_counts_perm_invariant_witness :
    List.Perm [exampleRow, plainRow] [plainRow, exampleRow]
    ∧ berita_per_hari [exampleRow, plainRow] ⟨2024, 1, 5⟩
        = berita_per_hari [plainRow, exampleRow] ⟨2024, 1, 5⟩ :=
  ⟨by decide,
   (aggregate_counts_perm_invariant [exampleRow, plainRow] [plainRow, exampleRow]
     (by decide) (enc "gue") (enc "Detik") ⟨2024, 1, 5⟩).2.2.2.2.2.2⟩

/-- C7: an unparseable date cell (such as "31/02/2024") loads as null
without aborting, it is counted exactly once by the invalid-date count,
and it is excluded from the min/max date range. -/
theorem invalid_date_null_counted_excluded (raws : List RawRow) (r : RawRow)
    (h : parseDate r.waktuStr = none) :
    parseDate (enc "31/02/2024") = none
    ∧ (loadRows (raws ++ [r])).map Row.waktu = (loadRows raws).map Row.waktu ++ [none]
    ∧ invalid_dates (loadRows (raws ++ [r])) = invalid_dates (loadRows raws) + 1
    ∧ periode (loadRows (raws ++ [r])) = periode (loadRows raws) := by
  refine ⟨by decide, ?_, ?_, ?_⟩
  · simp [loadRows, loadRow, h]
  · simp [invalid_dates, loadRows, loadRow, List.countP_append, h]
  · have hfm : (loadRows (raws ++ [r])).filterMap Row.waktu
        = (loadRows raws).filterMap Row.waktu := by
      simp [loadRows, loadRow, List.filterMap_append, h]
    simp [periode, minWaktu, maxWaktu, hfm]

theorem invalid_date_null_counted_excluded_witness :
    parseDate rawBad.waktuStr = none
    ∧ invalid_dates (loadRows ([rawGood] ++ [rawBad]))
        = invalid_dates (loadRows [rawGood]) + 1 :=
  ⟨by decide,
   (invalid_date_null_counted_excluded [rawGood] rawBad (by decide)).2.2.1⟩

/-- C8: a load-time failure is caught: the loader returns a null table and
a logged message instead of raising, and the main sequence then performs
neither the analysis step nor either rendering step. -/
theorem load_failure_skips_analysis_and_render (e : String) :
    (load_data (Except.error e)).1 = none
    ∧ (load_data (Except.error e)).2 = ["Error saat memuat data: " ++ e]
    ∧ mainSteps (Except.error e) = [Step.load]
    ∧ Step.analyze ∉ mainSteps (Except.error e)
    ∧ Step.render_viz ∉ mainSteps (Except.error e)
    ∧ Step.render_report ∉ mainSteps (Except.error e) := by
  refine ⟨rfl, rfl, rfl, ?_, ?_, ?_⟩ <;> simp [mainSteps, load_data]

/-- C9: on the row with title "Gue Suka Banget" and content "Berita biasa",
the detector returns ["gue", "banget"] for the title and [] for the
content; processing the row increments the title-slang counter by one,
leaves the content-slang counter unchanged, and appends an example record
whose matched-word set is {"gue", "banget"}. -/
theorem example_scenario_gue_banget (acc : SlangAcc) (h : acc.contoh.length < 5) :
    detect_slang_words exampleRow.judul slang_dictionary = [enc "gue", enc "banget"]
    ∧ detect_slang_words exampleRow.content slang_dictionary = []
    ∧ (processRow acc exampleRow).judulCount = acc.judulCount + 1
    ∧ (processRow acc exampleRow).kontenCount = acc.kontenCount
    ∧ (processRow acc exampleRow).contoh
        = acc.contoh
          ++ [{ judul := exampleRow.judul, waktu := exampleRow.waktu,
                source := exampleRow.source,
                kata_gaul := {enc "gue", enc "banget"} }] := by
  have hT : detect_slang_words exampleRow.judul slang_dictionary
      = [enc "gue", enc "banget"] := by decide
  have hC : detect_slang_words exampleRow.content slang_dictionary = [] := by decide
  have hmk : mkContoh exampleRow
      = { judul := exampleRow.judul, waktu := exampleRow.waktu,
          source := exampleRow.source, kata_gaul := {enc "gue", enc "banget"} } := by
    decide
  refine ⟨hT, hC, ?_, ?_, ?_⟩
  · rw [processRow_judulCount, hT]
    simp
  · rw [processRow_kontenCount, hC]
    simp
  · rw [processRow_contoh, if_pos ⟨by decide, h⟩, hmk]

theorem example_scenario_gue_banget_witness :
    initAcc.contoh.length < 5
    ∧ (processRow initAcc exampleRow).judulCount = initAcc.judulCount + 1 :=
  ⟨by decide, (example_scenario_gue_banget initAcc (by decide)).2.2.1⟩

/-- C3 fails on the code: the "10 Kata Gaul Terpopuler" chart selection
takes the first 10 entries of the frequency counter in insertion order
rather than the 10 highest frequencies in descending order. On a table
whose one row is titled "aja gue gue", the chart shows ("aja", 1) before
("gue", 2), which is not descending. -/
theorem top_words_chart_not_sorted :
    topWordsChart (analyze_news_and_slang [ajaGueRow])
      = [(enc "aja", 1), (enc "gue", 2)]
    ∧ descByCount (topWordsChart (analyze_news_and_slang [ajaGueRow])) = false := by
  constructor
  · decide
  · decide

end BahasaGaul
